import Mathlib

/-!
# Formalisation of the hash-linked upload ledger (`app.py`)

Shallow embedding of the `Block` / `Blockchain` core of the Flask file-upload
ledger.  Modelling choices:

* SHA-256 hex digests are modelled by the free inductive type `Hash`:
  `Hash.zero` is the one-character sentinel string `"0"` and
  `Hash.digest i t r p` models
  `sha256(json.dumps({index, timestamp, file_data, previous_hash}, sort_keys=True))`.
  Collision resistance of SHA-256 is idealised as injectivity and
  distinctness of the constructors (a 64-character digest never equals `"0"`,
  and digests of different field tuples never collide).
* Timestamps (`time.time()` floats) are modelled as `Nat` values supplied as
  explicit parameters wherever the Python code calls `time.time()`.
* The blockchain state is the list of block field-dictionaries that the Python
  code keeps in `self.chain`; `is_chain_valid` returns the boolean result
  together with the `validation_errors` list the call leaves behind.
* The persisted file is modelled by its parsed JSON content: a list of
  key/value objects (`Option` = the file may be missing or unparsable).
-/

/-- Application payload attached to one ledger entry: the Python dict
`{"filename": ..., "file_hash": ...}`. -/
structure Record where
  filename : String
  file_hash : String
  deriving DecidableEq, Repr

/-- Model of the hex-digest strings in the ledger.  `zero` is the sentinel
`"0"`; `digest i t r p` is the SHA-256 digest of the canonical (sorted-keys)
JSON encoding of the four hashed fields (`Block.calculate_hash`,
app.py 24–31). -/
inductive Hash where
  | zero : Hash
  | digest (index : Nat) (timestamp : Nat) (file_data : Record) (previous_hash : Hash) : Hash
  deriving DecidableEq, Repr

/-- A block's field dictionary (`Block.__dict__`, the representation stored in
`Blockchain.chain`): app.py 16–22. -/
structure Block where
  index : Nat
  timestamp : Nat
  file_data : Record
  previous_hash : Hash
  hash : Hash
  deriving DecidableEq, Repr

/-- Python `Block.calculate_hash` (app.py 24–31): digest of the four stored fields
`index`, `timestamp`, `file_data`, `previous_hash` (never of `hash` itself). -/
def Block.calculate_hash (b : Block) : Hash :=
  Hash.digest b.index b.timestamp b.file_data b.previous_hash

/-- Python `Block.__init__` (app.py 17–22): stores the four fields and computes
`hash` at construction time. -/
def Block.new (index timestamp : Nat) (file_data : Record) (previous_hash : Hash) : Block :=
  { index := index, timestamp := timestamp, file_data := file_data,
    previous_hash := previous_hash,
    hash := Hash.digest index timestamp file_data previous_hash }

/-- Python `Block.from_dict` (app.py 33–44): rebuilds a block from persisted fields
via the ordinary constructor, then overwrites the freshly computed hash with
the stored one (`block.hash = block_dict["hash"]`). -/
def Block.from_dict (index timestamp : Nat) (file_data : Record)
    (previous_hash stored_hash : Hash) : Block :=
  let block := Block.new index timestamp file_data previous_hash
  { block with hash := stored_hash }

/-- The genesis payload `{"filename": "genesis", "file_hash": "0"}`
(app.py 53). -/
def genesis_record : Record := { filename := "genesis", file_hash := "0" }

/-- The block built inside `create_genesis_block` (app.py 53); `t` is the
`time.time()` value of the call. -/
def genesis_block (t : Nat) : Block :=
  Block.new 0 t genesis_record Hash.zero

/-- Python `Blockchain.create_genesis_block` (app.py 52–54): appends a fresh genesis
block to the current chain.  Note that it appends — it does not reset the
chain first. -/
def create_genesis_block (t : Nat) (chain : List Block) : List Block :=
  chain ++ [genesis_block t]

/-- Python `Blockchain.__init__` (app.py 47–50): starts from the empty list and
appends one genesis block. -/
def new_blockchain (t : Nat) : List Block :=
  create_genesis_block t []

/-- Python `get_latest_block` (app.py 56–57): `self.chain[-1]`.  `none` models the
`IndexError` Python raises on an empty list. -/
def get_latest_block (chain : List Block) : Option Block :=
  chain.getLast?

/-- Python `add_block` (app.py 59–68): builds a new block at index `len(chain)` whose
`previous_hash` is the current tail's stored `hash`, appends it, returns it.
`t` is the `time.time()` of the call. -/
def add_block (chain : List Block) (t : Nat) (file_data : Record) :
    Option (List Block × Block) :=
  match get_latest_block chain with
  | none => none
  | some previous_block =>
    let new_block := Block.new chain.length t file_data previous_block.hash
    some (chain ++ [new_block], new_block)

/-- The `for i in range(1, len(chain))` loop of `is_chain_valid`
(app.py 82–107): checks the blocks from position `i` onward, `prev` being the
block at position `i - 1`; returns the first recorded error, or `none` when
every remaining block passes all three checks. -/
def chainStep (prev : Block) (i : Nat) : List Block → Option String
  | [] => none
  | current :: rest =>
    if current.hash ≠ current.calculate_hash then
      some ("Invalid hash for block " ++ toString i)
    else if current.previous_hash ≠ prev.hash then
      some ("Invalid previous hash reference in block " ++ toString i)
    else if current.index ≠ i then
      some ("Non-sequential block index at position " ++ toString i)
    else chainStep current (i + 1) rest

/-- Python `is_chain_valid` (app.py 70–109): the returned boolean together with the
`validation_errors` list the call leaves behind (reset to `[]` on entry, at
most one error appended before the early `return False`). -/
def is_chain_valid (chain : List Block) : Bool × List String :=
  match chain with
  | [] => (false, ["Blockchain is empty"])
  | g :: rest =>
    if g.index ≠ 0 ∨ g.previous_hash ≠ Hash.zero then
      (false, ["Invalid genesis block"])
    else
      match chainStep g 1 rest with
      | some err => (false, [err])
      | none => (true, [])

/-- The rebuild loop of `repair_chain` (app.py 122–134): each block keeps its
stored `timestamp` and `file_data`, gets sequential index `i`, links to the
previously rebuilt block's hash, and has its hash recomputed fresh. -/
def rebuildFrom (prev : Block) (i : Nat) : List Block → List Block
  | [] => []
  | current :: rest =>
    let new_block := Block.new i current.timestamp current.file_data prev.hash
    new_block :: rebuildFrom new_block (i + 1) rest

/-- Python `repair_chain` (app.py 111–137): chains of length ≤ 1 are reset to a fresh
genesis; otherwise the genesis dictionary is kept verbatim and the rest of the
chain is rebuilt.  Returns the new chain and the (always `True`) result; `t`
is the `time.time()` used when a fresh genesis is created. -/
def repair_chain (t : Nat) (chain : List Block) : List Block × Bool :=
  if chain.length ≤ 1 then
    (create_genesis_block t [], true)
  else
    match chain with
    | [] => (create_genesis_block t [], true)
    | g :: rest => (g :: rebuildFrom g 1 rest, true)

/-- One JSON value occurring as a field of a persisted block object. -/
inductive FieldVal where
  | num (n : Nat)
  | str (s : String)
  | hsh (h : Hash)
  | obj (r : Record)
  deriving DecidableEq, Repr

/-- The persisted form of one block: `block.__dict__` as written by
`json.dump` (app.py 139–141), a JSON object with the five fields in insertion
order. -/
def Block.to_entry (b : Block) : List (String × FieldVal) :=
  [("index", FieldVal.num b.index),
   ("timestamp", FieldVal.num b.timestamp),
   ("file_data", FieldVal.obj b.file_data),
   ("previous_hash", FieldVal.hsh b.previous_hash),
   ("hash", FieldVal.hsh b.hash)]

/-- Reading one parsed JSON object back as a block dictionary with the five
expected, correctly-typed fields; `none` models the `KeyError`/`TypeError`
path that `load_from_file` catches. -/
def entryToBlock (e : List (String × FieldVal)) : Option Block :=
  match e.lookup "index", e.lookup "timestamp", e.lookup "file_data",
      e.lookup "previous_hash", e.lookup "hash" with
  | some (FieldVal.num i), some (FieldVal.num t), some (FieldVal.obj r),
      some (FieldVal.hsh p), some (FieldVal.hsh h) =>
    some { index := i, timestamp := t, file_data := r, previous_hash := p, hash := h }
  | _, _, _, _, _ => none

/-- Parsing a whole persisted ledger file back into a chain; fails if any
entry is malformed. -/
def parseChain : List (List (String × FieldVal)) → Option (List Block)
  | [] => some []
  | e :: rest =>
    match entryToBlock e, parseChain rest with
    | some b, some bs => some (b :: bs)
    | _, _ => none

/-- Python `save_to_file` (app.py 139–141): the structured content written to the
destination file (`json.dump(self.chain, f)`). -/
def save_to_file (chain : List Block) : List (List (String × FieldVal)) :=
  chain.map Block.to_entry

/-- Python `load_from_file` (app.py 143–159).  `file` is the parsed content of the
source file (`none` = the file does not exist; `some entries` = it parses as
a JSON array of objects).  Returns the new in-memory chain and the content of
the file after the call.  A structurally malformed file (the
`JSONDecodeError`/`KeyError`/`TypeError` handler) resets to `[]` plus a fresh
genesis and persists it; a missing file appends a genesis to the *current*
chain (`create_genesis_block` does not reset) and persists; a file that
parses is accepted verbatim, even when `is_chain_valid` subsequently fails
(only a warning is printed). -/
def load_from_file (chain : List Block) (t : Nat)
    (file : Option (List (List (String × FieldVal)))) :
    List Block × Option (List (List (String × FieldVal))) :=
  match file with
  | some entries =>
    match parseChain entries with
    | some loaded => (loaded, some entries)
    | none =>
      let fresh := create_genesis_block t []
      (fresh, some (save_to_file fresh))
  | none =>
    let grown := create_genesis_block t chain
    (grown, some (save_to_file grown))

/-- The block at position `i - 1` after walking a suffix: `lastBlock prev l`
is the last element of `prev :: l`. -/
def lastBlock (prev : Block) : List Block → Block
  | [] => prev
  | x :: xs => lastBlock x xs

theorem lastBlock_cons (prev x : Block) (xs : List Block) :
    lastBlock prev (x :: xs) = lastBlock x xs := rfl

theorem getLast?_eq_lastBlock (l : List Block) : ∀ prev : Block,
    (prev :: l).getLast? = some (lastBlock prev l) := by
  induction l with
  | nil => intro prev; rfl
  | cons x xs ih => intro prev; rw [List.getLast?_cons_cons, ih x, lastBlock_cons]

theorem chainStep_append (xs : List Block) : ∀ (ys : List Block) (prev : Block) (i : Nat),
    chainStep prev i (xs ++ ys) =
      (chainStep prev i xs).or (chainStep (lastBlock prev xs) (i + xs.length) ys) := by
  induction xs with
  | nil => intro ys prev i; simp [chainStep, lastBlock, Option.or]
  | cons x xs ih =>
    intro ys prev i
    by_cases h1 : x.hash = x.calculate_hash
    · by_cases h2 : x.previous_hash = prev.hash
      · by_cases h3 : x.index = i
        · have harith : i + (x :: xs).length = (i + 1) + xs.length := by
            simp [List.length_cons]; omega
          simp only [List.cons_append, chainStep, h1, h2, h3, ne_eq,
            not_true_eq_false, if_false, ite_false, lastBlock_cons, harith]
          exact ih ys x (i + 1)
        · simp [chainStep, h1, h2, h3, Option.or]
      · simp [chainStep, h1, h2, Option.or]
    · simp [chainStep, h1, Option.or]

theorem chainStep_cons_none {prev : Block} {i : Nat} {b : Block} {l : List Block}
    (h : chainStep prev i (b :: l) = none) :
    b.hash = b.calculate_hash ∧ b.previous_hash = prev.hash ∧ b.index = i ∧
      chainStep b (i + 1) l = none := by
  by_cases h1 : b.hash = b.calculate_hash
  · by_cases h2 : b.previous_hash = prev.hash
    · by_cases h3 : b.index = i
      · refine ⟨h1, h2, h3, ?_⟩
        simpa [chainStep, h1, h2, h3] using h
      · simp [chainStep, h1, h2, h3] at h
    · simp [chainStep, h1, h2] at h
  · simp [chainStep, h1] at h

theorem chainStep_none_hash {l : List Block} : ∀ {prev : Block} {i : Nat},
    chainStep prev i l = none → ∀ b ∈ l, b.hash = b.calculate_hash := by
  induction l with
  | nil => intro prev i _ b hb; cases hb
  | cons x xs ih =>
    intro prev i h b hb
    obtain ⟨hx, -, -, hrest⟩ := chainStep_cons_none h
    rcases List.mem_cons.mp hb with hb | hb
    · exact hb ▸ hx
    · exact ih hrest b hb

theorem valid_cons_iff (g : Block) (rest : List Block) :
    (is_chain_valid (g :: rest)).1 = true ↔
      (g.index = 0 ∧ g.previous_hash = Hash.zero ∧ chainStep g 1 rest = none) := by
  by_cases h1 : g.index = 0
  · by_cases h2 : g.previous_hash = Hash.zero
    · cases hstep : chainStep g 1 rest with
      | none => simp [is_chain_valid, h1, h2, hstep]
      | some e => simp [is_chain_valid, h1, h2, hstep]
    · simp [is_chain_valid, h1, h2]
  · simp [is_chain_valid, h1]

theorem chainStep_rebuildFrom (l : List Block) : ∀ (prev : Block) (i : Nat),
    chainStep prev i (rebuildFrom prev i l) = none := by
  induction l with
  | nil => intro prev i; rfl
  | cons x xs ih =>
    intro prev i
    simp only [rebuildFrom]
    simp [chainStep, Block.new, Block.calculate_hash]
    exact ih _ (i + 1)

theorem rebuildFrom_of_chainStep_none {l : List Block} : ∀ {prev : Block} {i : Nat},
    chainStep prev i l = none → rebuildFrom prev i l = l := by
  induction l with
  | nil => intro prev i _; rfl
  | cons x xs ih =>
    intro prev i h
    obtain ⟨hx, hp, hi, hrest⟩ := chainStep_cons_none h
    have hblock : Block.new i x.timestamp x.file_data prev.hash = x := by
      cases x with
      | mk bi bt bf bp bh =>
        simp only [Block.calculate_hash] at hx
        simp_all [Block.new]
    simp only [rebuildFrom, hblock]
    rw [ih hrest]

theorem rebuildFrom_length (l : List Block) : ∀ (prev : Block) (i : Nat),
    (rebuildFrom prev i l).length = l.length := by
  induction l with
  | nil => intro prev i; rfl
  | cons x xs ih => intro prev i; simp [rebuildFrom, ih]

/-- The first block exists, has index `0` and previous hash `"0"` (the part of
the chain that `repair_chain` keeps verbatim and `is_chain_valid` checks). -/
def genesisOK : List Block → Prop
  | [] => False
  | g :: _ => g.index = 0 ∧ g.previous_hash = Hash.zero

theorem is_chain_valid_repair (t : Nat) (chain : List Block)
    (h : chain.length ≤ 1 ∨ genesisOK chain) :
    (is_chain_valid (repair_chain t chain).1).1 = true := by
  by_cases hlen : chain.length ≤ 1
  · simp only [repair_chain, if_pos hlen]
    rw [show create_genesis_block t [] = [genesis_block t] from rfl, valid_cons_iff]
    exact ⟨rfl, rfl, rfl⟩
  · have hgen : genesisOK chain := h.resolve_left hlen
    cases chain with
    | nil => exact absurd hgen (by simp [genesisOK])
    | cons g rest =>
      simp only [repair_chain, if_neg hlen]
      rw [valid_cons_iff]
      exact ⟨hgen.1, hgen.2, chainStep_rebuildFrom rest g 1⟩

theorem repair_chain_of_valid (t : Nat) (chain : List Block)
    (hv : (is_chain_valid chain).1 = true) (hlen : 2 ≤ chain.length) :
    (repair_chain t chain).1 = chain := by
  cases chain with
  | nil => simp at hlen
  | cons g rest =>
    have hni : ¬ (g :: rest).length ≤ 1 := by
      simp only [List.length_cons] at hlen ⊢; omega
    obtain ⟨-, -, hstep⟩ := (valid_cons_iff g rest).mp hv
    simp only [repair_chain, if_neg hni]
    rw [rebuildFrom_of_chainStep_none hstep]

theorem repair_chain_twice (t t' : Nat) (chain : List Block) :
    (repair_chain t' (repair_chain t chain).1).1 = (repair_chain t' chain).1 := by
  by_cases hlen : chain.length ≤ 1
  · simp only [repair_chain, if_pos hlen]
    rfl
  · cases chain with
    | nil => simp at hlen
    | cons g rest =>
      simp only [repair_chain, if_neg hlen]
      have hlen2 : ¬ (g :: rebuildFrom g 1 rest).length ≤ 1 := by
        simp only [List.length_cons, rebuildFrom_length]
        simp only [List.length_cons] at hlen
        omega
      simp only [if_neg hlen2]
      rw [rebuildFrom_of_chainStep_none (chainStep_rebuildFrom rest g 1)]

/-- A deliberately malformed genesis (index 1) followed by one more block:
`repair_chain` keeps the genesis dictionary verbatim, so validation still
fails afterwards. -/
def bad_genesis_chain : List Block :=
  [Block.new 1 0 { filename := "x", file_hash := "y" } Hash.zero,
   Block.new 1 1 { filename := "a", file_hash := "b" } Hash.zero]

/-- C2 counterexample: on a two-block chain whose genesis is malformed
(`index == 1`), the defect is detected by `is_chain_valid`, yet after
`repair_chain` the chain still fails validation — repair does not remove a
malformed genesis when the chain has more than one block. -/
theorem c2_repair_leaves_bad_genesis :
    (is_chain_valid bad_genesis_chain).1 = false ∧
      (repair_chain 5 bad_genesis_chain).2 = true ∧
      (is_chain_valid (repair_chain 5 bad_genesis_chain).1).1 = false := by
  decide

/-- C2 (amended): `repair_chain` always returns `True`; and whenever the chain
has length at most 1 (it is reset to a fresh genesis) or its first block has
index 0 and previous hash `"0"`, the repaired chain passes `is_chain_valid`.
(A malformed genesis in a chain of length ≥ 2 is kept verbatim and validation
still fails afterwards.) -/
theorem c2_repair_returns_true_and_validates (t : Nat) (chain : List Block) :
    (repair_chain t chain).2 = true ∧
      ((chain.length ≤ 1 ∨ genesisOK chain) →
        (is_chain_valid (repair_chain t chain).1).1 = true) := by
  constructor
  · by_cases hlen : chain.length ≤ 1
    · simp [repair_chain, hlen]
    · cases chain with
      | nil => simp at hlen
      | cons g rest =>
        simp only [repair_chain, if_neg hlen]
  · exact is_chain_valid_repair t chain

/-- Witness for C2 (amended) at a concrete two-block chain with a well-formed
genesis. -/
theorem c2_repair_returns_true_and_validates_witness :
    (repair_chain 5 [Block.new 0 0 genesis_record Hash.zero,
        Block.new 1 1 { filename := "a", file_hash := "b" } Hash.zero]).2 = true ∧
      (is_chain_valid (repair_chain 5 [Block.new 0 0 genesis_record Hash.zero,
        Block.new 1 1 { filename := "a", file_hash := "b" } Hash.zero]).1).1 = true :=
  ⟨(c2_repair_returns_true_and_validates 5 _).1,
   (c2_repair_returns_true_and_validates 5
      [Block.new 0 0 genesis_record Hash.zero,
       Block.new 1 1 { filename := "a", file_hash := "b" } Hash.zero]).2
      (Or.inr ⟨rfl, rfl⟩)⟩

/-- A single-block chain that passes validation (genesis checks look only at
`index` and `previous_hash`) but whose payload is not the genesis record. -/
def lone_upload_chain : List Block :=
  [Block.new 0 0 { filename := "a.txt", file_hash := "abc" } Hash.zero]

/-- C6 counterexample: `repair_chain` on this already-valid single-block chain
discards the block and installs a fresh genesis, so the record list changes —
the repaired chain is not semantically equivalent to the original. -/
theorem c6_repair_changes_records_of_valid_chain :
    (is_chain_valid lone_upload_chain).1 = true ∧
      (repair_chain 5 lone_upload_chain).1.map Block.file_data ≠
        lone_upload_chain.map Block.file_data := by
  decide

/-- C6 (amended): `repair_chain` on an already-valid chain of length ≥ 2
returns the chain unchanged (hence still valid, with the same records in the
same order); on any valid chain the repaired chain still validates (a valid
single-block chain is reset to a fresh genesis, which validates but need not
keep the record); and running repair twice in a row equals running the second
repair once. -/
theorem c6_repair_idempotent (t t' : Nat) (chain : List Block) :
    ((is_chain_valid chain).1 = true → 2 ≤ chain.length →
        (repair_chain t chain).1 = chain) ∧
    ((is_chain_valid chain).1 = true →
        (is_chain_valid (repair_chain t chain).1).1 = true) ∧
    (repair_chain t' (repair_chain t chain).1).1 = (repair_chain t' chain).1 := by
  refine ⟨repair_chain_of_valid t chain, ?_, repair_chain_twice t t' chain⟩
  intro hv
  apply is_chain_valid_repair
  cases chain with
  | nil => simp [is_chain_valid] at hv
  | cons g rest =>
    obtain ⟨h0, hz, -⟩ := (valid_cons_iff g rest).mp hv
    exact Or.inr ⟨h0, hz⟩

/-- Concrete valid three-block chain used by several witnesses. -/
def demo_genesis : Block := Block.new 0 0 genesis_record Hash.zero

/-- Second block of the demo chain. -/
def demo_block1 : Block :=
  Block.new 1 1 { filename := "a.txt", file_hash := "abc123" } demo_genesis.hash

/-- Third block of the demo chain. -/
def demo_block2 : Block :=
  Block.new 2 2 { filename := "b.txt", file_hash := "def456" } demo_block1.hash

/-- The demo chain itself. -/
def demo_chain : List Block := [demo_genesis, demo_block1, demo_block2]

/-- Witness for C6 (amended) on the concrete valid three-block chain. -/
theorem c6_repair_idempotent_witness :
    (repair_chain 9 demo_chain).1 = demo_chain ∧
      (is_chain_valid (repair_chain 9 demo_chain).1).1 = true ∧
      (repair_chain 7 (repair_chain 9 demo_chain).1).1 = (repair_chain 7 demo_chain).1 :=
  ⟨(c6_repair_idempotent 9 7 demo_chain).1 (by decide) (by decide),
   (c6_repair_idempotent 9 7 demo_chain).2.1 (by decide),
   (c6_repair_idempotent 9 7 demo_chain).2.2⟩

/-- C1: evaluating the code at the spec's end-to-end scenario.  A freshly
constructed `Blockchain` already holds one genesis block; `load_from_file` on
a missing source file *appends* a second genesis instead of resetting, so the
loaded ledger has two blocks, the end-to-end scenario ends with four blocks,
and validation fails (the second genesis's `previous_hash` `"0"` does not
match the first genesis's stored hash). -/
theorem c1_load_missing_appends_second_genesis :
    (load_from_file (new_blockchain 0) 1 none).1.length = 2 ∧
      (is_chain_valid (load_from_file (new_blockchain 0) 1 none).1).1 = false ∧
      ∃ c2 b2 c3 b3,
        add_block (load_from_file (new_blockchain 0) 1 none).1 2
            { filename := "a.txt", file_hash := "abc123" } = some (c2, b2) ∧
        add_block c2 3 { filename := "b.txt", file_hash := "def456" } = some (c3, b3) ∧
        c3.length = 4 ∧
        (is_chain_valid c3).1 = false := by
  refine ⟨by decide, by decide,
    [genesis_block 0, genesis_block 1,
      Block.new 2 2 { filename := "a.txt", file_hash := "abc123" } (genesis_block 1).hash],
    Block.new 2 2 { filename := "a.txt", file_hash := "abc123" } (genesis_block 1).hash,
    [genesis_block 0, genesis_block 1,
      Block.new 2 2 { filename := "a.txt", file_hash := "abc123" } (genesis_block 1).hash,
      Block.new 3 3 { filename := "b.txt", file_hash := "def456" }
        (Block.new 2 2 { filename := "a.txt", file_hash := "abc123" }
          (genesis_block 1).hash).hash],
    Block.new 3 3 { filename := "b.txt", file_hash := "def456" }
      (Block.new 2 2 { filename := "a.txt", file_hash := "abc123" }
        (genesis_block 1).hash).hash,
    by decide, by decide, by decide, by decide⟩

/-- C4: `add_block` on a nonempty chain returns the new block, the chain grows
by one, the new tail has index `len(chain)` and links to the old tail's stored
hash. -/
theorem c4_add_block_monotone (chain : List Block) (t : Nat) (R : Record)
    (h : chain ≠ []) :
    ∃ tail new_chain new_block,
      get_latest_block chain = some tail ∧
      add_block chain t R = some (new_chain, new_block) ∧
      new_chain.length = chain.length + 1 ∧
      new_block.index = chain.length ∧
      new_block.previous_hash = tail.hash ∧
      new_chain = chain ++ [new_block] := by
  cases chain with
  | nil => exact absurd rfl h
  | cons g rest =>
    have hlast : get_latest_block (g :: rest) = some (lastBlock g rest) :=
      getLast?_eq_lastBlock rest g
    refine ⟨lastBlock g rest,
      (g :: rest) ++ [Block.new (g :: rest).length t R (lastBlock g rest).hash],
      Block.new (g :: rest).length t R (lastBlock g rest).hash,
      hlast, ?_, ?_, rfl, rfl, rfl⟩
    · simp only [add_block, hlast]
    · simp

/-- Witness for C4 on the one-block chain `[demo_genesis]`. -/
theorem c4_add_block_monotone_witness :
    ∃ tail new_chain new_block,
      get_latest_block [demo_genesis] = some tail ∧
      add_block [demo_genesis] 3 { filename := "c.txt", file_hash := "fff" }
        = some (new_chain, new_block) ∧
      new_chain.length = [demo_genesis].length + 1 ∧
      new_block.index = [demo_genesis].length ∧
      new_block.previous_hash = tail.hash ∧
      new_chain = [demo_genesis] ++ [new_block] :=
  c4_add_block_monotone [demo_genesis] 3 { filename := "c.txt", file_hash := "fff" }
    (by decide)

/-- C9: appending to a chain on which `is_chain_valid` returns true yields a
chain on which `is_chain_valid` still returns true. -/
theorem c9_add_block_preserves_validity (chain : List Block) (t : Nat) (R : Record)
    (hv : (is_chain_valid chain).1 = true) :
    ∃ new_chain new_block,
      add_block chain t R = some (new_chain, new_block) ∧
      (is_chain_valid new_chain).1 = true := by
  cases chain with
  | nil => simp [is_chain_valid] at hv
  | cons g rest =>
    obtain ⟨h0, hz, hstep⟩ := (valid_cons_iff g rest).mp hv
    have hlast : get_latest_block (g :: rest) = some (lastBlock g rest) :=
      getLast?_eq_lastBlock rest g
    refine ⟨g :: (rest ++ [Block.new (g :: rest).length t R (lastBlock g rest).hash]),
      Block.new (g :: rest).length t R (lastBlock g rest).hash, ?_, ?_⟩
    · simp only [add_block, hlast]
      rfl
    · rw [valid_cons_iff]
      refine ⟨h0, hz, ?_⟩
      rw [chainStep_append rest _ g 1, hstep]
      simp [chainStep, Block.new, Block.calculate_hash, Option.or, Nat.add_comm]

/-- Witness for C9 on the concrete valid chain `demo_chain`. -/
theorem c9_add_block_preserves_validity_witness :
    ∃ new_chain new_block,
      add_block demo_chain 4 { filename := "c.txt", file_hash := "fff" }
        = some (new_chain, new_block) ∧
      (is_chain_valid new_chain).1 = true :=
  c9_add_block_preserves_validity demo_chain 4
    { filename := "c.txt", file_hash := "fff" } (by decide)

/-- C8: `Block.from_dict` keeps the stored hash verbatim (no recomputation)
and every other field as given — for every stored hash value, including those
that differ from the digest recomputed from the other four fields. -/
theorem c8_from_dict_trusts_stored_hash (i t : Nat) (r : Record) (p stored : Hash) :
    (Block.from_dict i t r p stored).index = i ∧
      (Block.from_dict i t r p stored).timestamp = t ∧
      (Block.from_dict i t r p stored).file_data = r ∧
      (Block.from_dict i t r p stored).previous_hash = p ∧
      (Block.from_dict i t r p stored).hash = stored :=
  ⟨rfl, rfl, rfl, rfl, rfl⟩

/-- C10: `is_chain_valid` never recomputes the genesis block's own hash:
there is a two-block chain whose genesis stored hash differs from the digest
of its own stored fields, whose second block links to the *stored* genesis
hash, and which validates. -/
theorem c10_genesis_hash_never_recomputed :
    ∃ g b : Block, g.hash ≠ g.calculate_hash ∧ b.previous_hash = g.hash ∧
      (is_chain_valid [g, b]).1 = true := by
  refine ⟨{ index := 0, timestamp := 0, file_data := genesis_record,
            previous_hash := Hash.zero, hash := Hash.zero },
          Block.new 1 1 { filename := "a", file_hash := "b" } Hash.zero,
          ?_, ?_, ?_⟩ <;> decide

theorem entryToBlock_to_entry (b : Block) :
    entryToBlock (Block.to_entry b) = some b := rfl

theorem parseChain_save (chain : List Block) :
    parseChain (save_to_file chain) = some chain := by
  induction chain with
  | nil => rfl
  | cons b rest ih =>
    simp only [save_to_file, List.map_cons] at ih ⊢
    rw [parseChain, entryToBlock_to_entry, ih]

/-- C7: saving a chain and loading from the same destination reproduces a
chain with identical `index`, `timestamp`, `record`, `previous_hash` and
`hash` values for every entry, in order (and the file is not rewritten). -/
theorem c7_save_load_round_trip (old_chain : List Block) (t : Nat) (chain : List Block) :
    load_from_file old_chain t (some (save_to_file chain))
      = (chain, some (save_to_file chain)) := by
  simp [load_from_file, parseChain_save]

/-- The spec's per-position check (step 3 of `validate()` in §4.3): at
position `i ≥ 1`, first the stored hash against the digest recomputed from
the block's own stored fields, then the link to block `i-1`'s stored hash,
then sequentiality of the index; the first failing check's message is
returned. -/
def specCheckAt (chain : List Block) (i : Nat) : Option String :=
  match chain[i]?, chain[i-1]? with
  | some current, some prev =>
    if current.hash ≠ current.calculate_hash then
      some ("Invalid hash for block " ++ toString i)
    else if current.previous_hash ≠ prev.hash then
      some ("Invalid previous hash reference in block " ++ toString i)
    else if current.index ≠ i then
      some ("Non-sequential block index at position " ++ toString i)
    else none
  | _, _ => none

/-- The spec's `validate()` as it words it: empty-chain check, genesis check, then
the first failure among positions `1 .. len-1` taken in ascending order;
`true` with an empty error list only when every block passes every check,
otherwise `false` with exactly the first failure recorded. -/
def spec_validate (chain : List Block) : Bool × List String :=
  match chain with
  | [] => (false, ["Blockchain is empty"])
  | g :: _ =>
    if g.index ≠ 0 ∨ g.previous_hash ≠ Hash.zero then
      (false, ["Invalid genesis block"])
    else
      match List.findSome? (specCheckAt chain) (List.range' 1 (chain.length - 1)) with
      | some e => (false, [e])
      | none => (true, [])

theorem chainStep_eq_findSome (l : List Block) :
    ∀ (chain : List Block) (prev : Block) (i : Nat),
      chain.length = i + l.length → chain.drop i = l → chain[i-1]? = some prev →
      chainStep prev i l = List.findSome? (specCheckAt chain) (List.range' i l.length) := by
  induction l with
  | nil => intro chain prev i _ _ _; rfl
  | cons cur rest ih =>
    intro chain prev i hlen hdrop hprev
    have hcur : chain[i]? = some cur := by
      have h0 := List.getElem?_drop chain i 0
      rw [hdrop] at h0
      simpa using h0.symm
    have hdrop' : chain.drop (i + 1) = rest := by
      have h1 : (chain.drop i).drop 1 = rest := by rw [hdrop]; rfl
      rwa [List.drop_drop] at h1
    have hlen' : chain.length = (i + 1) + rest.length := by
      simp only [List.length_cons] at hlen; omega
    have hprev' : chain[(i + 1) - 1]? = some cur := by simpa using hcur
    simp only [List.length_cons]
    rw [List.range'_succ, List.findSome?_cons]
    simp only [specCheckAt, hcur, hprev]
    by_cases h1 : cur.hash = cur.calculate_hash
    · by_cases h2 : cur.previous_hash = prev.hash
      · by_cases h3 : cur.index = i
        · simp only [chainStep, h1, h2, h3, ne_eq, not_true_eq_false, if_false, ite_false]
          exact ih chain cur (i + 1) hlen' hdrop' hprev'
        · simp [chainStep, h1, h2, h3]
      · simp [chainStep, h1, h2]
    · simp [chainStep, h1]

/-- C5: `is_chain_valid` is exactly the spec's fail-fast validation — the
result equals the first failure encountered in the fixed order (empty chain;
genesis `index`/`previous_hash`; for ascending `i`: recomputed hash, then
previous-hash link, then sequential index), no blocks are considered past the
first failure, and a failing run records exactly one error. -/
theorem c5_fail_fast_first_error (chain : List Block) :
    is_chain_valid chain = spec_validate chain ∧
      ((is_chain_valid chain).1 = false → (is_chain_valid chain).2.length = 1) := by
  constructor
  · cases chain with
    | nil => rfl
    | cons g rest =>
      by_cases hg : g.index ≠ 0 ∨ g.previous_hash ≠ Hash.zero
      · simp [is_chain_valid, spec_validate, hg]
      · have hstep := chainStep_eq_findSome rest (g :: rest) g 1
          (by simp [Nat.add_comm]) rfl (by simp)
        simp only [is_chain_valid, spec_validate, if_neg hg, List.length_cons,
          Nat.add_sub_cancel]
        rw [hstep]
  · intro hfalse
    cases chain with
    | nil => rfl
    | cons g rest =>
      by_cases hg : g.index ≠ 0 ∨ g.previous_hash ≠ Hash.zero
      · simp [is_chain_valid, hg]
      · cases hstep : chainStep g 1 rest with
        | some e => simp [is_chain_valid, hg, hstep]
        | none => simp [is_chain_valid, hg, hstep] at hfalse

/-- Witness for C5 at a concrete chain (the invalid double-genesis chain). -/
theorem c5_fail_fast_first_error_witness :
    is_chain_valid [genesis_block 0, genesis_block 1]
        = spec_validate [genesis_block 0, genesis_block 1] ∧
      (is_chain_valid [genesis_block 0, genesis_block 1]).2.length = 1 :=
  ⟨(c5_fail_fast_first_error [genesis_block 0, genesis_block 1]).1,
   (c5_fail_fast_first_error [genesis_block 0, genesis_block 1]).2 (by decide)⟩

/-- A mutation of a single one of the four tamperable fields of a block
(`record`, `index`, `previous_hash`, `hash`), carrying the new value. -/
inductive FieldChange where
  | setRecord (r : Record)
  | setIndex (n : Nat)
  | setPrev (h : Hash)
  | setHash (h : Hash)

/-- Apply a single-field mutation to a block (the other four fields are kept). -/
def applyChange : FieldChange → Block → Block
  | FieldChange.setRecord r, b => { b with file_data := r }
  | FieldChange.setIndex n, b => { b with index := n }
  | FieldChange.setPrev h, b => { b with previous_hash := h }
  | FieldChange.setHash h, b => { b with hash := h }

theorem applyChange_hash_mismatch {b : Block} (hb : b.hash = b.calculate_hash)
    {m : FieldChange} (hne : applyChange m b ≠ b) :
    (applyChange m b).hash ≠ (applyChange m b).calculate_hash := by
  cases m with
  | setRecord r =>
    intro h
    apply hne
    have h' : Hash.digest b.index b.timestamp b.file_data b.previous_hash
        = Hash.digest b.index b.timestamp r b.previous_hash := by
      simpa [applyChange, Block.calculate_hash, hb] using h
    injection h' with h1 h2 h3 h4
    simp only [applyChange]
    rw [← h3]
  | setIndex n =>
    intro h
    apply hne
    have h' : Hash.digest b.index b.timestamp b.file_data b.previous_hash
        = Hash.digest n b.timestamp b.file_data b.previous_hash := by
      simpa [applyChange, Block.calculate_hash, hb] using h
    injection h' with h1 h2 h3 h4
    simp only [applyChange]
    rw [← h1]
  | setPrev p =>
    intro h
    apply hne
    have h' : Hash.digest b.index b.timestamp b.file_data b.previous_hash
        = Hash.digest b.index b.timestamp b.file_data p := by
      simpa [applyChange, Block.calculate_hash, hb] using h
    injection h' with h1 h2 h3 h4
    simp only [applyChange]
    rw [← h4]
  | setHash hn =>
    intro h
    apply hne
    have h' : hn = b.hash := by
      simpa [applyChange, Block.calculate_hash, hb] using h
    simp only [applyChange]
    rw [h']

/-- C3: in a chain that validates, with a non-genesis block `b` at position
`xs.length + 1` (the chain being `g :: xs ++ b :: ys`, of length ≥ 3),
changing any single one of `record`, `index`, `previous_hash` or `hash` of
`b` to a different value makes `is_chain_valid` return `false` with exactly
one recorded error naming that position — the stored-hash check at that
position is the first to fail. -/
theorem c3_single_field_tampering_detected (g b : Block) (xs ys : List Block)
    (m : FieldChange)
    (hvalid : (is_chain_valid (g :: xs ++ b :: ys)).1 = true)
    (_hlen : 3 ≤ (g :: xs ++ b :: ys).length)
    (hne : applyChange m b ≠ b) :
    is_chain_valid (g :: xs ++ applyChange m b :: ys)
      = (false, ["Invalid hash for block " ++ toString (xs.length + 1)]) := by
  obtain ⟨h0, hz, hstep⟩ := (valid_cons_iff g (xs ++ b :: ys)).mp hvalid
  have happ := chainStep_append xs (b :: ys) g 1
  rw [hstep] at happ
  have hxs : chainStep g 1 xs = none := by
    cases hx : chainStep g 1 xs with
    | none => rfl
    | some e => rw [hx] at happ; simp [Option.or] at happ
  have htail : chainStep (lastBlock g xs) (1 + xs.length) (b :: ys) = none := by
    rw [hxs] at happ
    simpa [Option.or] using happ.symm
  obtain ⟨hbh, -, -, -⟩ := chainStep_cons_none htail
  have hmut : (applyChange m b).hash ≠ (applyChange m b).calculate_hash :=
    applyChange_hash_mismatch hbh hne
  have hfinal : chainStep g 1 (xs ++ applyChange m b :: ys)
      = some ("Invalid hash for block " ++ toString (1 + xs.length)) := by
    rw [chainStep_append xs (applyChange m b :: ys) g 1, hxs]
    simp [chainStep, hmut, Option.or]
  rw [Nat.add_comm 1 xs.length] at hfinal
  have hcond : ¬(g.index ≠ 0 ∨ g.previous_hash ≠ Hash.zero) := by simp [h0, hz]
  have hrw : is_chain_valid (g :: xs ++ applyChange m b :: ys)
      = match chainStep g 1 (xs ++ applyChange m b :: ys) with
        | some err => (false, [err])
        | none => (true, []) := by
    show (if g.index ≠ 0 ∨ g.previous_hash ≠ Hash.zero then
        (false, ["Invalid genesis block"])
      else match chainStep g 1 (xs ++ applyChange m b :: ys) with
        | some err => (false, [err])
        | none => (true, [])) = _
    rw [if_neg hcond]
  rw [hrw, hfinal]

/-- Witness for C3: mutating the second block's record in the concrete valid
three-block chain is reported as an invalid hash at position 1. -/
theorem c3_single_field_tampering_detected_witness :
    is_chain_valid [demo_genesis,
        applyChange (FieldChange.setRecord { filename := "z", file_hash := "w" }) demo_block1,
        demo_block2]
      = (false, ["Invalid hash for block " ++ toString 1]) :=
  c3_single_field_tampering_detected demo_genesis demo_block1 [] [demo_block2]
    (FieldChange.setRecord { filename := "z", file_hash := "w" })
    (by decide) (by decide) (by decide)
